import Mathlib

/-!
# Glide-ratio calculator (src/Computer/GlideRatioCalculator.cpp)

A shallow embedding of the rolling glide-ratio estimator
(`GlideRatioCalculator::Initialize`, `Add`, `Calculate`) together with the
properties of its rolling sum, its rejection path, its window bookkeeping and
its result; of the smoother `UpdateGR` with its clamp `LimitGR`; and of the
validity check of a polar (src/Polar/Polar.cpp).

Modelling conventions:

* `unsigned` values are natural numbers; the arithmetic on `totaldistance` is
  taken modulo `2^32` explicitly.
* `short` and `int` values are integers.  The indices `start`, `size` and
  `bcold` stay far below the range of a `short` in every state reached from
  `Initialize`; the `int` subtraction of two altitudes is taken in `ℤ`.
* `double` values are rationals: the only floating-point operations of
  `Calculate` are one division of two integers and one comparison with `200`.
  In `UpdateGR` the quotient `1. / gr` can divide by zero; its IEEE value, an
  infinity, and what the filter makes of it are kept apart from the rationals
  (type `Dbl`).  Rounding is not modelled.
* An access `records[i]` with `i` outside the array has no defined result; the
  functions return `none` there.
-/

namespace GlideRatio

/-- Modelled from the spec: the number of slots of the `records` array, whose
declaration (GlideRatioCalculator.hpp) is not among the sources.  The spec
bounds the capacity by the largest supported averaging window, 180 slots, and
`Initialize` asserts `bsize <= ARRAY_SIZE(records)` with `bsize` up to 180. -/
def capacity : Nat := 180

/-- The sentinel ratio.  Its definition is not among the sources; the comment
above `Calculate` ("returns 0 if invalid, 999 if too high") gives its value. -/
def INVALID_GR : ℚ := 999

/-- Constant `MAXEFFICIENCYSHOW`: "over this, show INVALID_GR". -/
def MAXEFFICIENCYSHOW : ℚ := 200

/-- Modulus of `unsigned` arithmetic. -/
def u32 : Nat := 2 ^ 32

/-- Modelled from the spec: one slot of the rotary buffer (the record type is
declared in GlideRatioCalculator.hpp, not among the sources), with the three
fields `Add` writes: `distance` unsigned, `altitude` and `te_altitude` signed. -/
structure Record where
  distance : Nat
  altitude : Int
  te_altitude : Int
deriving DecidableEq, Repr

/-- Modelled from the spec: the data members of `GlideRatioCalculator`
(declared in GlideRatioCalculator.hpp, not among the sources), as the spec's
data model lists them: `start` is a signed index with sentinel `-1`, `size` the
window length, `totaldistance` an unsigned running sum.  Only the slots below
`capacity` of `records` belong to the array. -/
structure GlideRatioCalculator where
  records : Nat → Record
  totaldistance : Nat
  start : Int
  size : Int
  valid : Bool

/-- The values of `settings.average_eff_time`: the six enumerators that the
switch of `Initialize` names, and `unlisted` for any other stored value, which
takes the `default` branch (compiled unless the compiler is clang). -/
inductive AverageEffTime where
  | ae15seconds
  | ae30seconds
  | ae60seconds
  | ae90seconds
  | ae2minutes
  | ae3minutes
  | unlisted
deriving DecidableEq, Repr

/-- The part of `ComputerSettings` that `Initialize` reads. -/
structure ComputerSettings where
  average_eff_time : AverageEffTime

/-- The switch of `Initialize`: the buffer size of each averaging period. -/
def bsize (settings : ComputerSettings) : Nat :=
  match settings.average_eff_time with
  | .ae15seconds => 15
  | .ae30seconds => 30
  | .ae60seconds => 60
  | .ae90seconds => 90
  | .ae2minutes => 120
  | .ae3minutes => 180
  | .unlisted => 3

/-- `GlideRatioCalculator::Initialize`: resets the sum, the index and the flag
and sets the window length; the records are left as they are.  The two
assertions hold for every setting (`bsize_bounds`). -/
def Initialize (c : GlideRatioCalculator) (settings : ComputerSettings) :
    GlideRatioCalculator :=
  { records := c.records
    totaldistance := 0
    start := -1
    size := (bsize settings : Int)
    valid := false }

/-- Whether `i` indexes a slot of the `records` array. -/
def inArray (i : Int) : Prop := 0 ≤ i ∧ i < (capacity : Int)

instance (i : Int) : Decidable (inArray i) := by
  unfold inArray; infer_instance

/-- The index `start` after `if (++start >= size) start = 0;`. -/
def nextStart (c : GlideRatioCalculator) : Int :=
  if c.start + 1 ≥ c.size then 0 else c.start + 1

/-- The flag `valid` after `if (++start >= size) valid = true;`. -/
def nextValid (c : GlideRatioCalculator) : Bool :=
  if c.start + 1 ≥ c.size then true else c.valid

/-- `GlideRatioCalculator::Add`, with the function-static counter `errs` passed
in and out.  A distance outside `[3, 150]` only touches `errs`.  Otherwise the
index advances (wrapping to 0 and setting `valid`), the distance of the slot
about to be overwritten leaves the sum when `valid`, and the sample is
written. -/
def Add (errs : Int) (c : GlideRatioCalculator) (distance : Nat)
    (altitude te_altitude : Int) : Option (Int × GlideRatioCalculator) :=
  if distance < 3 ∨ distance > 150 then
    if errs > 2 then some (0, c) else some (errs + 1, c)
  else
    let start := nextStart c
    let valid := nextValid c
    if inArray start then
      let slot := start.toNat
      let total :=
        if valid then (c.totaldistance + (u32 - (c.records slot).distance % u32)) % u32
        else c.totaldistance
      some (0,
        { records := Function.update c.records slot
            { distance := distance, altitude := altitude, te_altitude := te_altitude }
          totaldistance := (total + distance) % u32
          start := start
          size := c.size
          valid := valid })
    else none

/-- The slot `bcold` that `Calculate` takes as the oldest of the window. -/
def bcold (c : GlideRatioCalculator) : Int :=
  if !c.valid then 0
  else if c.start < c.size - 1 then c.start + 1 else 0

/-- The altitude difference `altdiff` of `Calculate` between the slots `old`
and `c.start` (both inside the array). -/
def altdiff (c : GlideRatioCalculator) (use_te : Bool) (old : Int) : Int :=
  if use_te ∧ (c.records old.toNat).te_altitude > 0
      ∧ (c.records c.start.toNat).te_altitude > 0 then
    (c.records old.toNat).altitude - (c.records c.start.toNat).altitude
  else
    (c.records old.toNat).te_altitude - (c.records c.start.toNat).te_altitude

/-- The tail of `Calculate` from `if (altdiff == 0)` on. -/
def ratioOf (totaldistance : Nat) (altdiff : Int) : ℚ :=
  if altdiff = 0 then INVALID_GR
  else
    let eff : ℚ := (totaldistance : ℚ) / (altdiff : ℚ)
    if eff > MAXEFFICIENCYSHOW then INVALID_GR else eff

/-- `GlideRatioCalculator::Calculate`. -/
def Calculate (c : GlideRatioCalculator) (use_te : Bool) : Option ℚ :=
  if c.start ≥ c.size then some 0
  else if !c.valid ∧ c.start = 0 then some 0
  else
    let old := bcold c
    if inArray old ∧ inArray c.start then
      some (ratioOf c.totaldistance (altdiff c use_te old))
    else none

/-- The arguments of one call of `Add`. -/
structure AddCall where
  distance : Nat
  altitude : Int
  te_altitude : Int
deriving DecidableEq, Repr

/-- Whether `Add` accepts the sample (its distance lies in `[3, 150]`). -/
def AddCall.accepted (x : AddCall) : Prop := ¬ (x.distance < 3 ∨ x.distance > 150)

instance (x : AddCall) : Decidable x.accepted := by
  unfold AddCall.accepted; infer_instance

/-- A sequence of calls of `Add`, in order. -/
def AddAll (errs : Int) (c : GlideRatioCalculator) :
    List AddCall → Option (Int × GlideRatioCalculator)
  | [] => some (errs, c)
  | x :: xs =>
    match Add errs c x.distance x.altitude x.te_altitude with
    | none => none
    | some (e, c') => AddAll e c' xs

/-- An estimator whose records are all zero, for concrete evaluations. -/
def blank : GlideRatioCalculator :=
  { records := fun _ => { distance := 0, altitude := 0, te_altitude := 0 }
    totaldistance := 0
    start := -1
    size := 3
    valid := false }

/-- The setting that selects the window of length 3. -/
def window3 : ComputerSettings := { average_eff_time := .unlisted }

/-- The setting `ae15seconds`, which selects the window of length 15. -/
def window15 : ComputerSettings := { average_eff_time := .ae15seconds }

/-! ## Derived notions used in the statements -/

/-- Sum of the `distance` fields of the slots `0 .. n-1`. -/
def slotSum (records : Nat → Record) : Nat → Nat
  | 0 => 0
  | n + 1 => slotSum records n + (records n).distance

/-- Number of occupied slots: the whole window once `valid`, else the slots
`0 .. start` written so far (none when `start` is `-1`). -/
def occupied (c : GlideRatioCalculator) : Nat :=
  if c.valid then c.size.toNat else (c.start + 1).toNat

/-- The invariant of the rolling sum. -/
structure RollInv (c : GlideRatioCalculator) : Prop where
  size_lo : 3 ≤ c.size
  size_hi : c.size ≤ (capacity : Int)
  start_lo : -1 ≤ c.start
  start_hi : c.start < c.size
  bound : ∀ j, j < occupied c → 3 ≤ (c.records j).distance ∧ (c.records j).distance ≤ 150
  sum : c.totaldistance = slotSum c.records (occupied c)

/-- The state after an accepted `Add` whose slot lies inside the array. -/
def written (c : GlideRatioCalculator) (d : Nat) (a t : Int) : GlideRatioCalculator :=
  { records := Function.update c.records (nextStart c).toNat
      { distance := d, altitude := a, te_altitude := t }
    totaldistance :=
      ((if nextValid c then
          (c.totaldistance + (u32 - (c.records (nextStart c).toNat).distance % u32)) % u32
        else c.totaldistance) + d) % u32
    start := nextStart c
    size := c.size
    valid := nextValid c }

/-- The record that `Add` writes for a call. -/
def AddCall.toRecord (x : AddCall) : Record :=
  { distance := x.distance, altitude := x.altitude, te_altitude := x.te_altitude }

/-- The accepted calls of a sequence, in order. -/
def acceptedCalls (calls : List AddCall) : List AddCall :=
  calls.filter (fun x => decide x.accepted)

/-- The buffer of `c` holds the last `n` samples of `L` (all of them while
fewer than `n` were accepted), sample `i` in slot `i % n`. -/
structure Rep (n : Nat) (L : List AddCall) (c : GlideRatioCalculator) : Prop where
  size_eq : c.size = (n : Int)
  start_eq : c.start = if L.length = 0 then -1 else (((L.length - 1) % n : Nat) : Int)
  valid_eq : c.valid = decide (n < L.length)
  slots : ∀ i x, L[i]? = some x → L.length ≤ i + n → c.records (i % n) = x.toRecord
  total_eq : c.totaldistance = ((L.drop (L.length - n)).map AddCall.distance).sum
  acc : ∀ x ∈ L, x.accepted

/-- The window of the naive computation: the last `min |L| s` samples of `L`. -/
def naiveWindow (s : Nat) (L : List AddCall) : List AddCall :=
  L.drop (L.length - min L.length s)

/-- The altitude difference between the samples `o` (earliest) and `n` (latest),
chosen by the rule of `Calculate`. -/
def naiveAltdiff (use_te : Bool) (o n : AddCall) : Int :=
  if use_te ∧ o.te_altitude > 0 ∧ n.te_altitude > 0 then o.altitude - n.altitude
  else o.te_altitude - n.te_altitude

/-- The glide ratio computed directly from the list `L` of accepted samples. -/
def naiveCalculate (s : Nat) (L : List AddCall) (use_te : Bool) : ℚ :=
  let W := naiveWindow s L
  match W.head?, W.getLast? with
  | some o, some n => ratioOf (W.map AddCall.distance).sum (naiveAltdiff use_te o n)
  | _, _ => 0

/-- Two estimators that agree on everything except the raw `altitude` fields of
their records. -/
def sameButAltitude (c c' : GlideRatioCalculator) : Prop :=
  c.totaldistance = c'.totaldistance ∧ c.start = c'.start ∧ c.size = c'.size
    ∧ c.valid = c'.valid
    ∧ ∀ j, (c.records j).distance = (c'.records j).distance
        ∧ (c.records j).te_altitude = (c'.records j).te_altitude

/-! ## Concrete inputs -/

/-- The three samples of the worked example of the spec. -/
def exampleCalls : List AddCall :=
  [ { distance := 10, altitude := 100, te_altitude := 100 },
    { distance := 10, altitude := 90, te_altitude := 90 },
    { distance := 10, altitude := 80, te_altitude := 80 } ]

/-- Five samples with the out-of-range distance 200. -/
def rejectedCalls : List AddCall :=
  List.replicate 5 { distance := 200, altitude := 0, te_altitude := 0 }

/-- Two samples whose raw and energy-compensated altitudes differ. -/
def teCalls : List AddCall :=
  [ { distance := 10, altitude := 100, te_altitude := 500 },
    { distance := 10, altitude := 90, te_altitude := 450 } ]

/-- Two samples at the same altitude. -/
def levelCalls : List AddCall :=
  [ { distance := 10, altitude := 100, te_altitude := 100 },
    { distance := 10, altitude := 100, te_altitude := 100 } ]

/-- Fifteen accepted samples, as many as the window of `ae15seconds` holds. -/
def fifteenCalls : List AddCall :=
  List.replicate 15 { distance := 10, altitude := 100, te_altitude := 100 }

/-- A single accepted sample. -/
def singleCall : List AddCall :=
  [ { distance := 10, altitude := 100, te_altitude := 100 } ]

/-- The state after `Initialize` with the window of length 3 on `blank`,
`Add(10, alt0, 40)` and `Add(10, alt1, -5)`: two samples, the newer one without a
positive `te_altitude`. -/
def fallbackState (alt0 alt1 : Int) : GlideRatioCalculator :=
  { records := fun j =>
      if j = 1 then { distance := 10, altitude := alt1, te_altitude := -5 }
      else if j = 0 then { distance := 10, altitude := alt0, te_altitude := 40 }
      else { distance := 0, altitude := 0, te_altitude := 0 }
    totaldistance := 20
    start := 1
    size := 3
    valid := false }

/-- Five calls, one of them rejected: four accepted samples, one more than the
window of length 3 holds. -/
def wrapCalls : List AddCall :=
  [ { distance := 10, altitude := 100, te_altitude := 100 },
    { distance := 200, altitude := 0, te_altitude := 0 },
    { distance := 10, altitude := 90, te_altitude := 90 },
    { distance := 10, altitude := 80, te_altitude := 80 },
    { distance := 20, altitude := 70, te_altitude := 70 } ]

/-! ## The smoother `UpdateGR` and the polar -/

/-- Function `LimitGR`: "limit to reasonable values". -/
def LimitGR (gr : ℚ) : ℚ :=
  if |gr| > INVALID_GR then INVALID_GR
  else if gr ≥ 0 ∧ gr < 1 then 1
  else if gr < 0 ∧ gr > -1 then -1
  else gr

/-- A `double` as `UpdateGR` can meet one when its arguments are finite: a
rational (rounding is not modelled), or one of the values that IEEE arithmetic
gives to a division by zero and to what is computed from it. -/
inductive Dbl where
  | fin (q : ℚ)
  | posInf
  | negInf
  | nan
deriving DecidableEq, Repr

/-- The quotient `1. / gr`: an infinity when `gr` is zero. -/
def reciprocal (gr : ℚ) : Dbl :=
  if gr = 0 then .posInf else .fin (1 / gr)

/-- Modelled from the spec: `LowPassFilter` of Math/LowPassFilter.hpp, which is
not among the sources: the single-pole low-pass filter
`(1 - fact) * y_last + fact * x_in`, which blends the previous value `y_last`
with the new value `x_in`, a larger factor weighting the new observation more.
For an infinite `y_last` the product `(1 - fact) * y_last` is infinite with the
sign of the factor, and not a number when the factor is zero. -/
def LowPassFilter (y_last : Dbl) (x_in fact : ℚ) : Dbl :=
  match y_last with
  | .fin y => .fin ((1 - fact) * y + fact * x_in)
  | .posInf => if 1 - fact > 0 then .posInf else if 1 - fact < 0 then .negInf else .nan
  | .negInf => if 1 - fact > 0 then .negInf else if 1 - fact < 0 then .posInf else .nan
  | .nan => .nan

/-- The value of `glideangle` at the comparison of `UpdateGR`, for
`leg_distance > 0`: the new glide angle `height_above_leg / leg_distance`,
passed through the filter together with `1. / gr` when the previous ratio is
not `INVALID_GR`.  The filter is a parameter. -/
def smoothedAngle (filter : Dbl → ℚ → ℚ → Dbl)
    (gr leg_distance height_above_leg filter_factor : ℚ) : Dbl :=
  if gr ≠ INVALID_GR then
    filter (reciprocal gr) (height_above_leg / leg_distance) filter_factor
  else .fin (height_above_leg / leg_distance)

/-- Function `UpdateGR`, with the low-pass filter as a parameter.  The test
`fabs(glideangle) > 1. / INVALID_GR` holds for an infinite `glideangle`, whose
reciprocal is zero, and fails for one that is not a number. -/
def UpdateGR (filter : Dbl → ℚ → ℚ → Dbl)
    (gr leg_distance height_above_leg filter_factor : ℚ) : ℚ :=
  if leg_distance ≤ 0 then gr
  else
    match smoothedAngle filter gr leg_distance height_above_leg filter_factor with
    | .fin glideangle =>
      if |glideangle| > 1 / INVALID_GR then LimitGR (1 / glideangle) else INVALID_GR
    | .posInf => LimitGR 0
    | .negInf => LimitGR 0
    | .nan => INVALID_GR

/-- The switch of `Initialize` as clang compiles it: the `default` branch is
left out (`#ifndef __clang__`), so no value is assigned to `bsize` for a setting
outside the six enumerators. -/
def bsizeClang (settings : ComputerSettings) : Option Nat :=
  match settings.average_eff_time with
  | .ae15seconds => some 15
  | .ae30seconds => some 30
  | .ae60seconds => some 60
  | .ae90seconds => some 90
  | .ae2minutes => some 120
  | .ae3minutes => some 180
  | .unlisted => none

/-- `GlideRatioCalculator::Initialize` as clang compiles it.  For a setting
outside the six enumerators `bsize` is still uninitialised when the two
assertions and `size = bsize` read it: the call has no defined result. -/
def InitializeClang (c : GlideRatioCalculator) (settings : ComputerSettings) :
    Option GlideRatioCalculator :=
  match bsizeClang settings with
  | none => none
  | some b =>
    some
      { records := c.records
        totaldistance := 0
        start := -1
        size := (b : Int)
        valid := false }

/-- The three calibration points `(v1, w1)`, `(v2, w2)`, `(v3, w3)` of a polar:
the members of `PolarInfo` that `CalculateCoefficients` reads. -/
structure PolarInfo where
  v1 : ℚ
  v2 : ℚ
  v3 : ℚ
  w1 : ℚ
  w2 : ℚ
  w3 : ℚ

/-- Modelled from the spec: the coefficients of the quadratic polar
`sink = a·v² + b·v + c` (`PolarCoefficients`, declared outside the sources). -/
structure PolarCoefficients where
  a : ℚ
  b : ℚ
  c : ℚ
deriving DecidableEq, Repr

/-- A quotient in exact arithmetic: a division by zero yields no finite value. -/
def quotient (x y : ℚ) : Option ℚ :=
  if y = 0 then none else some (x / y)

/-- Modelled from the spec: `PolarCoefficients::From3VW`, which is not among
the sources: the closed-form three-point quadratic interpolation, the solution
of the 3×3 system `a·vᵢ² + b·vᵢ + c = wᵢ` (`i = 1..3`).  Each calibration point
contributes the term `wᵢ / ((vᵢ - vⱼ)·(vᵢ - vₖ))`; a quotient that divides by
zero is not finite, and then there is no finite coefficient set (`none`). -/
def From3VW (v1 v2 v3 w1 w2 w3 : ℚ) : Option PolarCoefficients :=
  match quotient w1 ((v1 - v2) * (v1 - v3)), quotient w2 ((v2 - v1) * (v2 - v3)),
      quotient w3 ((v3 - v1) * (v3 - v2)) with
  | some l1, some l2, some l3 =>
    some
      { a := l1 + l2 + l3
        b := -(l1 * (v2 + v3) + l2 * (v1 + v3) + l3 * (v1 + v2))
        c := l1 * (v2 * v3) + l2 * (v1 * v3) + l3 * (v1 * v2) }
  | _, _, _ => none

/-- Modelled from the spec: `PolarCoefficients::IsValid`, which is not among
the sources: `a` must be non-negative and no coefficient may be non-finite. -/
def coefficientsValid : Option PolarCoefficients → Bool
  | none => false
  | some p => decide (0 ≤ p.a)

/-- `PolarInfo::CalculateCoefficients`. -/
def PolarInfo.CalculateCoefficients (p : PolarInfo) : Option PolarCoefficients :=
  From3VW p.v1 p.v2 p.v3 p.w1 p.w2 p.w3

/-- `PolarInfo::IsValid`. -/
def PolarInfo.IsValid (p : PolarInfo) : Bool :=
  coefficientsValid p.CalculateCoefficients

/-- The value of the fitted polar at the airspeed `v`. -/
def PolarCoefficients.sink (p : PolarCoefficients) (v : ℚ) : ℚ :=
  p.a * v ^ 2 + p.b * v + p.c

/-! ## The rolling sum and the window bookkeeping -/

theorem u32_eq : u32 = 4294967296 := by norm_num [u32]

theorem bsize_bounds (s : ComputerSettings) : 3 ≤ bsize s ∧ bsize s ≤ capacity := by
  rcases s with ⟨a⟩
  cases a <;> simp [bsize, capacity]

theorem slotSum_update_ge (records : Nat → Record) (i : Nat) (r : Record) (n : Nat)
    (h : n ≤ i) : slotSum (Function.update records i r) n = slotSum records n := by
  induction n with
  | zero => rfl
  | succ m ih =>
    have hm : m ≠ i := by omega
    simp [slotSum, ih (by omega), Function.update_noteq hm]

theorem slotSum_update_lt (records : Nat → Record) (i : Nat) (r : Record) (n : Nat)
    (h : i < n) :
    slotSum (Function.update records i r) n + (records i).distance
      = slotSum records n + r.distance := by
  induction n with
  | zero => omega
  | succ m ih =>
    by_cases hm : i = m
    · subst hm
      simp [slotSum, slotSum_update_ge records i r i (le_refl i)]
      omega
    · have hlt : i < m := by omega
      have hne : m ≠ i := fun e => hm e.symm
      have := ih hlt
      simp [slotSum, Function.update_noteq hne]
      omega

theorem slotSum_le (records : Nat → Record) (n : Nat)
    (h : ∀ j, j < n → (records j).distance ≤ 150) : slotSum records n ≤ 150 * n := by
  induction n with
  | zero => simp [slotSum]
  | succ m ih =>
    have h1 := ih (fun j hj => h j (by omega))
    have h2 := h m (by omega)
    simp [slotSum]
    omega

theorem slot_le_slotSum (records : Nat → Record) (n i : Nat) (h : i < n) :
    (records i).distance ≤ slotSum records n := by
  induction n with
  | zero => omega
  | succ m ih =>
    by_cases hm : i = m
    · subst hm; simp [slotSum]
    · have := ih (by omega)
      simp [slotSum]
      omega

theorem RollInv_Initialize (c : GlideRatioCalculator) (s : ComputerSettings) :
    RollInv (Initialize c s) := by
  have hb := bsize_bounds s
  refine ⟨?_, ?_, ?_, ?_, ?_, ?_⟩ <;> simp [Initialize, occupied, slotSum]
  · omega
  · exact_mod_cast hb.2
  · omega

theorem nextStart_inArray (c : GlideRatioCalculator) (h : RollInv c) :
    inArray (nextStart c) := by
  have h1 := h.size_lo; have h2 := h.size_hi; have h3 := h.start_lo; have h4 := h.start_hi
  unfold inArray nextStart
  split <;> omega

theorem Add_accepted_eq (errs : Int) (c : GlideRatioCalculator) (d : Nat) (a t : Int)
    (h : inArray (nextStart c)) (hd : ¬ (d < 3 ∨ d > 150)) :
    Add errs c d a t = some (0, written c d a t) := by
  unfold Add written
  simp only [hd, if_false, h, if_true]

theorem Add_rejected_eq (errs : Int) (c : GlideRatioCalculator) (d : Nat) (a t : Int)
    (hd : d < 3 ∨ d > 150) :
    Add errs c d a t = some (if errs > 2 then 0 else errs + 1, c) := by
  unfold Add
  simp only [hd, if_true]
  split <;> rfl

theorem RollInv_Add_accepted (c : GlideRatioCalculator) (d : Nat) (a t : Int)
    (h : RollInv c) (hd : ¬ (d < 3 ∨ d > 150)) :
    RollInv (written c d a t) := by
  unfold written
  obtain ⟨h1, h2, h3, h4, hb, hs⟩ := h
  have hcap : (capacity : Int) = 180 := by simp [capacity]
  by_cases hv : nextValid c = true
  · -- the window is full after the call: one slot is replaced
    have hocc : occupied c = c.size.toNat := by
      unfold occupied
      by_cases hcv : c.valid = true
      · simp [hcv]
      · have hw : c.start + 1 ≥ c.size := by
          by_contra hcon
          simp [nextValid, hcon] at hv
          exact hcv hv
        simp [hcv]
        omega
    have hlt : (nextStart c).toNat < c.size.toNat := by
      unfold nextStart; split <;> omega
    have hupd := slotSum_update_lt c.records (nextStart c).toNat
      { distance := d, altitude := a, te_altitude := t } c.size.toNat hlt
    have hle := slot_le_slotSum c.records c.size.toNat (nextStart c).toNat hlt
    have hbd := slotSum_le c.records c.size.toNat (fun j hj => (hb j (by omega)).2)
    have hslot := hb (nextStart c).toNat (by omega)
    rw [hocc] at hs
    refine ⟨h1, h2, ?_, ?_, ?_, ?_⟩
    · show -1 ≤ nextStart c
      unfold nextStart; split <;> omega
    · show nextStart c < c.size
      unfold nextStart; split <;> omega
    · intro j hj
      simp only [occupied, hv, if_true] at hj
      by_cases hji : j = (nextStart c).toNat
      · subst hji; simp; omega
      · simp only [Function.update_noteq hji]
        exact hb j (by omega)
    · simp only [occupied, hv, if_true, u32_eq]
      simp only [] at hupd
      omega
  · -- the window is still filling: a new slot is appended
    have hcv : c.valid = false := by
      by_contra hcon
      apply hv
      unfold nextValid; split <;> simp_all
    have hnw : ¬ (c.start + 1 ≥ c.size) := by
      intro hcon
      apply hv
      simp [nextValid, hcon]
    have hns : nextStart c = c.start + 1 := by simp [nextStart, hnw]
    have hocc : occupied c = (c.start + 1).toNat := by simp [occupied, hcv]
    have hnv : nextValid c = false := by simpa using hv
    have hupd := slotSum_update_ge c.records (c.start + 1).toNat
      { distance := d, altitude := a, te_altitude := t } (c.start + 1).toNat (le_refl _)
    have hbd := slotSum_le c.records (c.start + 1).toNat
      (fun j hj => (hb j (by omega)).2)
    rw [hocc] at hs
    have hocc2 : occupied (written c d a t) = (c.start + 1).toNat + 1 := by
      unfold written
      simp only [occupied, hnv, hns]
      simp
      omega
    refine ⟨h1, h2, ?_, ?_, ?_, ?_⟩
    · show -1 ≤ nextStart c
      omega
    · show nextStart c < c.size
      omega
    · intro j hj
      have hj2 : j < occupied (written c d a t) := hj
      rw [hocc2] at hj2
      rw [hns]
      by_cases hji : j = (c.start + 1).toNat
      · subst hji
        simp; omega
      · simp only [Function.update_noteq hji]
        exact hb j (by omega)
    · show _ = slotSum _ (occupied (written c d a t))
      rw [hocc2]
      simp only [hnv, slotSum, u32_eq]
      rw [hns, hupd]
      simp
      omega

theorem sum_distance_le (M : List AddCall) (h : ∀ x ∈ M, x.accepted) :
    (M.map AddCall.distance).sum ≤ 150 * M.length := by
  induction M with
  | nil => simp
  | cons y ys ih =>
    have h1 := ih (fun x hx => h x (List.mem_cons_of_mem _ hx))
    have h2 := h y (List.mem_cons_self _ _)
    unfold AddCall.accepted at h2
    simp only [List.map_cons, List.sum_cons, List.length_cons]
    omega

theorem Rep_Initialize (c : GlideRatioCalculator) (s : ComputerSettings) :
    Rep (bsize s) [] (Initialize c s) := by
  refine ⟨?_, ?_, ?_, ?_, ?_, ?_⟩ <;> simp [Initialize]

theorem succ_mod_eq (m n : Nat) (hn : 1 < n) :
    (m + 1) % n = if m % n + 1 = n then 0 else m % n + 1 := by
  have h1 : 1 % n = 1 := Nat.mod_eq_of_lt hn
  have hm : m % n < n := Nat.mod_lt _ (by omega)
  rw [Nat.add_mod, h1]
  split
  · rename_i h
    rw [h]; exact Nat.mod_self _
  · exact Nat.mod_eq_of_lt (by omega)

theorem Rep_nextStart (n : Nat) (L : List AddCall) (c : GlideRatioCalculator)
    (hn : 1 < n) (h : Rep n L c) : nextStart c = ((L.length % n : Nat) : Int) := by
  have h1 := h.size_eq
  have h2 := h.start_eq
  unfold nextStart
  rw [h1, h2]
  rcases Nat.eq_zero_or_pos L.length with hL | hL
  · rw [hL]
    have : ¬ ((-1 : Int) + 1 ≥ (n : Int)) := by omega
    simp [this]
  · obtain ⟨k, hk⟩ : ∃ k, L.length = k + 1 := ⟨L.length - 1, by omega⟩
    have hm : k % n < n := Nat.mod_lt _ (by omega)
    rw [hk, succ_mod_eq k n hn]
    simp only [Nat.add_sub_cancel, Nat.succ_ne_zero, if_false]
    by_cases hw : k % n + 1 = n
    · have hge : ((k % n : Nat) : Int) + 1 ≥ (n : Int) := by omega
      rw [if_pos hge, if_pos hw]; rfl
    · have hlt : ¬ (((k % n : Nat) : Int) + 1 ≥ (n : Int)) := by omega
      rw [if_neg hlt, if_neg hw]
      push_cast; ring

theorem Rep_inArray (n : Nat) (L : List AddCall) (c : GlideRatioCalculator)
    (hn : 3 ≤ n) (hcap : n ≤ capacity) (h : Rep n L c) : inArray (nextStart c) := by
  rw [Rep_nextStart n L c (by omega) h]
  have : L.length % n < n := Nat.mod_lt _ (by omega)
  unfold inArray
  omega

theorem Rep_written (n : Nat) (L : List AddCall) (c : GlideRatioCalculator)
    (x : AddCall) (hn : 3 ≤ n) (hcap : n ≤ capacity) (h : Rep n L c) (hx : x.accepted) :
    Rep n (L ++ [x]) (written c x.distance x.altitude x.te_altitude) := by
  have hns := Rep_nextStart n L c (by omega) h
  have hmod : L.length % n < n := Nat.mod_lt _ (by omega)
  have hslot : (nextStart c).toNat = L.length % n := by rw [hns]; exact Int.toNat_ofNat _
  have hnv : nextValid c = decide (n < L.length + 1) := by
    unfold nextValid
    rw [h.size_eq, h.start_eq, h.valid_eq]
    rcases Nat.eq_zero_or_pos L.length with hL | hL
    · rw [hL]
      have : ¬ ((-1 : Int) + 1 ≥ (n : Int)) := by omega
      simp [this]
    · have hL0 : L.length ≠ 0 := by omega
      rw [if_neg hL0]
      have hm1 : (L.length - 1) % n < n := Nat.mod_lt _ (by omega)
      by_cases hw : (((L.length - 1) % n : Nat) : Int) + 1 ≥ (n : Int)
      · rw [if_pos hw]
        have : n ≤ L.length := by
          have := Nat.mod_le (L.length - 1) n
          omega
        simp; omega
      · rw [if_neg hw]
        by_cases hk : n < L.length
        · simp [hk]; omega
        · have : (L.length - 1) % n = L.length - 1 := Nat.mod_eq_of_lt (by omega)
          rw [this] at hw
          simp [hk]; omega
  refine ⟨?_, ?_, ?_, ?_, ?_, ?_⟩
  · exact h.size_eq
  · show nextStart c = _
    rw [hns]; simp
  · show nextValid c = _
    rw [hnv]; simp
  · intro i y hy hle
    show Function.update c.records (nextStart c).toNat _ (i % n) = _
    rw [hslot]
    simp only [List.length_append, List.length_singleton] at hle
    by_cases hi : i = L.length
    · subst hi
      rw [List.getElem?_concat_length] at hy
      cases hy
      simp [AddCall.toRecord]
    · have hlt : i < L.length := by
        have := (List.getElem?_eq_some.mp hy).1
        simp only [List.length_append, List.length_singleton] at this
        omega
      rw [List.getElem?_append_left hlt] at hy
      have hne : i % n ≠ L.length % n := by
        intro e
        have h1 : (L.length - i) % n = 0 := Nat.sub_mod_eq_zero_of_mod_eq e.symm
        have h2 : (L.length - i) % n = L.length - i := Nat.mod_eq_of_lt (by omega)
        omega
      rw [Function.update_noteq hne]
      exact h.slots i y hy (by omega)
  · show ((if nextValid c then _ else _) + x.distance) % u32 = _
    rw [hnv, hslot, h.total_eq, u32_eq]
    have hbd := sum_distance_le (L.drop (L.length - n))
      (fun y hy => h.acc y (List.mem_of_mem_drop hy))
    have hlen : (L.drop (L.length - n)).length ≤ n := by
      simp only [List.length_drop]; omega
    have hcap2 : n ≤ 180 := hcap
    have hbd2 : ((L.drop (L.length - n)).map AddCall.distance).sum ≤ 150 * n := by omega
    clear hbd hlen
    have hxd : 3 ≤ x.distance ∧ x.distance ≤ 150 := by
      unfold AddCall.accepted at hx; omega
    simp only [List.length_append, List.length_singleton]
    by_cases hk : n < L.length + 1
    · have hi0 : L.length - n < L.length := by omega
      have hdrop : L.drop (L.length - n) = L[L.length - n] :: L.drop (L.length - n + 1) :=
        List.drop_eq_getElem_cons hi0
      have hrec := h.slots (L.length - n) L[L.length - n]
        (List.getElem?_eq_getElem hi0) (by omega)
      have hmodeq : (L.length - n) % n = L.length % n := by
        have e : L.length = (L.length - n) + n := by omega
        conv_rhs => rw [e]
        simp
      rw [hmodeq] at hrec
      have hnew : (L ++ [x]).drop (L.length + 1 - n) = L.drop (L.length - n + 1) ++ [x] := by
        have e : L.length + 1 - n = L.length - n + 1 := by omega
        rw [e, List.drop_append_of_le_length (by omega)]
      rw [hnew, hrec]
      simp only [hdrop, hk, decide_True, if_true, List.map_cons, List.sum_cons, List.map_append,
        List.sum_append, List.map_nil, List.sum_nil, AddCall.toRecord] at hbd2 ⊢
      omega
    · have e1 : L.length - n = 0 := by omega
      have e2 : L.length + 1 - n = 0 := by omega
      rw [e1] at hbd2
      simp only [List.drop_zero] at hbd2
      simp only [e1, e2, hk, decide_False, List.drop_zero, List.map_append, List.sum_append,
        List.map_cons, List.map_nil, List.sum_cons, List.sum_nil]
      simp
      omega
  · intro y hy
    rcases List.mem_append.mp hy with hy | hy
    · exact h.acc y hy
    · simp only [List.mem_singleton] at hy
      rw [hy]; exact hx

theorem AddAll_inv (n : Nat) (hn : 3 ≤ n) (hcap : n ≤ capacity) (calls : List AddCall) :
    ∀ (errs : Int) (c : GlideRatioCalculator) (L : List AddCall),
      RollInv c → Rep n L c →
      ∃ e c', AddAll errs c calls = some (e, c') ∧ RollInv c'
        ∧ Rep n (L ++ acceptedCalls calls) c' := by
  induction calls with
  | nil =>
    intro errs c L hR hP
    exact ⟨errs, c, rfl, hR, by simpa [acceptedCalls] using hP⟩
  | cons x xs ih =>
    intro errs c L hR hP
    by_cases hx : x.accepted
    · have hadd := Add_accepted_eq errs c x.distance x.altitude x.te_altitude
        (nextStart_inArray c hR) hx
      obtain ⟨e, c', h1, h2, h3⟩ := ih 0 (written c x.distance x.altitude x.te_altitude)
        (L ++ [x]) (RollInv_Add_accepted c _ _ _ hR hx) (Rep_written n L c x hn hcap hP hx)
      refine ⟨e, c', ?_, h2, ?_⟩
      · simp only [AddAll, hadd]; exact h1
      · have : acceptedCalls (x :: xs) = x :: acceptedCalls xs := by
          simp [acceptedCalls, hx]
        rw [this]
        simpa using h3
    · have hrej : x.distance < 3 ∨ x.distance > 150 := by
        unfold AddCall.accepted at hx
        exact not_not.mp hx
      have hadd := Add_rejected_eq errs c x.distance x.altitude x.te_altitude hrej
      obtain ⟨e, c', h1, h2, h3⟩ := ih (if errs > 2 then 0 else errs + 1) c L hR hP
      refine ⟨e, c', ?_, h2, ?_⟩
      · simp only [AddAll, hadd]; exact h1
      · have : acceptedCalls (x :: xs) = acceptedCalls xs := by
          simp [acceptedCalls, hx]
        rw [this]; exact h3

/-- Every run from `Initialize` ends in a state that satisfies both invariants. -/
theorem run_inv (c0 : GlideRatioCalculator) (s : ComputerSettings) (errs : Int)
    (calls : List AddCall) :
    ∃ e c, AddAll errs (Initialize c0 s) calls = some (e, c) ∧ RollInv c
      ∧ Rep (bsize s) (acceptedCalls calls) c := by
  have hb := bsize_bounds s
  have := AddAll_inv (bsize s) hb.1 hb.2 calls errs (Initialize c0 s) []
    (RollInv_Initialize c0 s) (Rep_Initialize c0 s)
  simpa using this

theorem Rep_start (n : Nat) (L : List AddCall) (c : GlideRatioCalculator)
    (h : Rep n L c) (hk : 1 ≤ L.length) :
    c.start = (((L.length - 1) % n : Nat) : Int) := by
  have := h.start_eq
  rw [if_neg (by omega)] at this
  exact this

theorem Rep_bcold (n : Nat) (L : List AddCall) (c : GlideRatioCalculator)
    (hn : 3 ≤ n) (h : Rep n L c) (hk : 1 ≤ L.length) :
    bcold c = (((L.length - n) % n : Nat) : Int) := by
  unfold bcold
  rw [h.valid_eq, Rep_start n L c h hk, h.size_eq]
  by_cases hv : n < L.length
  · have hmodeq : (L.length - n) % n = L.length % n := by
      have e : L.length = (L.length - n) + n := by omega
      conv_rhs => rw [e]
      simp
    obtain ⟨k, hk2⟩ : ∃ k, L.length = k + 1 := ⟨L.length - 1, by omega⟩
    have hm : k % n < n := Nat.mod_lt _ (by omega)
    rw [hmodeq, hk2, succ_mod_eq k n (by omega)]
    simp only [hk2 ▸ hv, decide_True, Bool.not_true, Nat.add_sub_cancel]
    by_cases hw : k % n + 1 = n
    · have hge : ¬ (((k % n : Nat) : Int) < (n : Int) - 1) := by omega
      rw [if_neg hge, if_pos hw]
      simp
    · have hlt : ((k % n : Nat) : Int) < (n : Int) - 1 := by omega
      rw [if_pos hlt, if_neg hw]
      simp
  · have e : L.length - n = 0 := by omega
    simp [hv, e]

theorem Rep_newest (n : Nat) (L : List AddCall) (c : GlideRatioCalculator)
    (hn : 3 ≤ n) (h : Rep n L c) (x : AddCall) (hx : L[L.length - 1]? = some x) :
    c.records c.start.toNat = x.toRecord := by
  have hk : 1 ≤ L.length := by
    have := (List.getElem?_eq_some.mp hx).1
    omega
  rw [Rep_start n L c h hk, Int.toNat_ofNat]
  exact h.slots (L.length - 1) x hx (by omega)

theorem Rep_oldest (n : Nat) (L : List AddCall) (c : GlideRatioCalculator)
    (hn : 3 ≤ n) (h : Rep n L c) (x : AddCall) (hx : L[L.length - n]? = some x) :
    c.records (bcold c).toNat = x.toRecord := by
  have hk : 1 ≤ L.length := by
    have := (List.getElem?_eq_some.mp hx).1
    omega
  rw [Rep_bcold n L c hn h hk, Int.toNat_ofNat]
  exact h.slots (L.length - n) x hx (by omega)

/-- With at least two accepted samples `Calculate` reaches the division. -/
theorem Rep_Calculate (n : Nat) (L : List AddCall) (c : GlideRatioCalculator)
    (hn : 3 ≤ n) (hcap : n ≤ capacity) (h : Rep n L c) (hk : 2 ≤ L.length)
    (use_te : Bool) :
    Calculate c use_te = some (ratioOf c.totaldistance (altdiff c use_te (bcold c))) := by
  have hs := Rep_start n L c h (by omega)
  have hb := Rep_bcold n L c hn h (by omega)
  have hm1 : (L.length - 1) % n < n := Nat.mod_lt _ (by omega)
  have hm2 : (L.length - n) % n < n := Nat.mod_lt _ (by omega)
  have hcap2 : n ≤ 180 := hcap
  have g1 : ¬ (c.start ≥ c.size) := by rw [hs, h.size_eq]; omega
  have g2 : ¬ ((!c.valid) = true ∧ c.start = 0) := by
    rintro ⟨hv, h0⟩
    rw [h.valid_eq] at hv
    simp at hv
    have : (L.length - 1) % n = L.length - 1 := Nat.mod_eq_of_lt (by omega)
    rw [hs, this] at h0
    omega
  have g3 : inArray (bcold c) ∧ inArray c.start := by
    unfold inArray capacity
    rw [hs, hb]
    omega
  unfold Calculate
  simp only [g1, g2, g3, if_false, if_true, and_self]

theorem Rep_naive (n : Nat) (L : List AddCall) (c : GlideRatioCalculator)
    (hn : 3 ≤ n) (h : Rep n L c) (hk : 1 ≤ L.length) (use_te : Bool) :
    naiveCalculate n L use_te = ratioOf c.totaldistance (altdiff c use_te (bcold c)) := by
  have hw : naiveWindow n L = L.drop (L.length - n) := by
    unfold naiveWindow
    congr 1
    omega
  obtain ⟨o, ho⟩ : ∃ o, L[L.length - n]? = some o :=
    ⟨_, List.getElem?_eq_getElem (by omega)⟩
  obtain ⟨x, hx⟩ : ∃ x, L[L.length - 1]? = some x :=
    ⟨_, List.getElem?_eq_getElem (by omega)⟩
  have hhead : (naiveWindow n L).head? = some o := by
    rw [hw, List.head?_drop]; exact ho
  have hlast : (naiveWindow n L).getLast? = some x := by
    rw [hw, List.getLast?_drop, if_neg (by omega), List.getLast?_eq_getElem?]; exact hx
  have hold := Rep_oldest n L c hn h o ho
  have hnew := Rep_newest n L c hn h x hx
  unfold naiveCalculate
  simp only [hhead, hlast]
  rw [hw, ← h.total_eq]
  congr 1
  unfold naiveAltdiff altdiff
  rw [hold, hnew]
  simp [AddCall.toRecord]

/-! ## Rejection, the empty estimator and the rolling sum -/

theorem AddAll_rejected (calls : List AddCall) :
    ∀ (errs : Int) (c : GlideRatioCalculator),
      (∀ x ∈ calls, x.distance < 3 ∨ x.distance > 150) →
      ∃ e, AddAll errs c calls = some (e, c) := by
  induction calls with
  | nil => intro errs c _; exact ⟨errs, rfl⟩
  | cons x xs ih =>
    intro errs c h
    have hadd := Add_rejected_eq errs c x.distance x.altitude x.te_altitude
      (h x (List.mem_cons_self _ _))
    obtain ⟨e, he⟩ := ih (if errs > 2 then 0 else errs + 1) c
      (fun y hy => h y (List.mem_cons_of_mem _ hy))
    exact ⟨e, by simp only [AddAll, hadd]; exact he⟩

theorem Calculate_eq_ratioOf (c : GlideRatioCalculator) (use_te : Bool)
    (h1 : ¬ (c.start ≥ c.size)) (h2 : ¬ ((!c.valid) = true ∧ c.start = 0))
    (h3 : inArray (bcold c) ∧ inArray c.start) :
    Calculate c use_te = some (ratioOf c.totaldistance (altdiff c use_te (bcold c))) := by
  unfold Calculate
  simp only [h1, h2, h3, if_false, if_true, and_self]

theorem Calculate_sentinel_start (c : GlideRatioCalculator) (use_te : Bool)
    (hs : c.start = -1) (hn : 0 ≤ c.size) : Calculate c use_te = none := by
  have h1 : ¬ (c.start ≥ c.size) := by omega
  have h2 : ¬ ((!c.valid) = true ∧ c.start = 0) := by omega
  have h3 : ¬ (inArray (bcold c) ∧ inArray c.start) := by
    unfold inArray; omega
  unfold Calculate
  simp only [h1, h2, h3, if_false]

theorem Rep_Calculate_single (n : Nat) (L : List AddCall) (c : GlideRatioCalculator)
    (hn : 3 ≤ n) (h : Rep n L c) (hk : L.length = 1) (use_te : Bool) :
    Calculate c use_te = some 0 := by
  have hs := Rep_start n L c h (by omega)
  have hv := h.valid_eq
  have hsz := h.size_eq
  rw [hk] at hs hv
  have hs0 : c.start = 0 := by rw [hs]; simp
  have hv0 : c.valid = false := by rw [hv]; simp; omega
  have h1 : ¬ (c.start ≥ c.size) := by omega
  unfold Calculate
  simp [h1, hs0, hv0]

/-- Claim C1. After `Initialize` and any finite sequence of `Add` calls
(accepted or rejected), for every window length, the run is defined and
`totaldistance` equals the sum of the `distance` fields of the occupied slots:
slots `0 .. start` while `valid` is false (no slot when `start` is `-1`), all
slots `0 .. size-1` once `valid` is true. -/
theorem totaldistance_eq_occupied_sum (c0 : GlideRatioCalculator) (s : ComputerSettings)
    (errs : Int) (calls : List AddCall) :
    ∃ e c, AddAll errs (Initialize c0 s) calls = some (e, c)
      ∧ (c.valid = false → c.totaldistance = slotSum c.records (c.start + 1).toNat)
      ∧ (c.valid = true → c.totaldistance = slotSum c.records c.size.toNat) := by
  obtain ⟨e, c, hrun, hR, _⟩ := run_inv c0 s errs calls
  refine ⟨e, c, hrun, ?_, ?_⟩
  · intro hv
    have := hR.sum
    simpa [occupied, hv] using this
  · intro hv
    have := hR.sum
    simpa [occupied, hv] using this

/-- Claim C2. For every estimator state, every value of the counter `errs` and
every distance below 3 or above 150, `Add` returns the estimator unchanged
(`totaldistance`, `start`, `size`, `valid` and all records); only `errs` may
change. -/
theorem Add_rejected_unchanged (errs : Int) (c : GlideRatioCalculator) (distance : Nat)
    (altitude te_altitude : Int) (h : distance < 3 ∨ distance > 150) :
    ∃ e, Add errs c distance altitude te_altitude = some (e, c) :=
  ⟨_, Add_rejected_eq errs c distance altitude te_altitude h⟩

theorem Add_rejected_unchanged_witness :
    ((200 : Nat) < 3 ∨ (200 : Nat) > 150)
      ∧ ∃ e, Add 3 (Initialize blank window3) 200 0 0 = some (e, Initialize blank window3) :=
  ⟨by decide, Add_rejected_unchanged 3 (Initialize blank window3) 200 0 0 (by decide)⟩

/-- Any number of consecutive rejected calls leaves the estimator unchanged. -/
theorem AddAll_rejected_unchanged (errs : Int) (c : GlideRatioCalculator)
    (calls : List AddCall) (h : ∀ x ∈ calls, ¬ x.accepted) :
    ∃ e, AddAll errs c calls = some (e, c) :=
  AddAll_rejected calls errs c (fun x hx => not_not.mp (h x hx))

/-- Claim C3, evaluated on the code. After `Initialize` (with `ae15seconds`, and
likewise with the window of length 3) and five calls `Add(200, ..)`, `start` is
still `-1`; `Calculate` passes both guards (`-1 >= size` and `-1 == 0` are
false) and reads `records[start]` outside the array, so it has no defined
result instead of returning 0. -/
theorem Calculate_without_sample_undefined :
    (∃ e c, AddAll 0 (Initialize blank window15) rejectedCalls = some (e, c)
      ∧ c = Initialize blank window15 ∧ c.start = -1
      ∧ Calculate c true = none ∧ Calculate c false = none)
    ∧ (∃ e c, AddAll 0 (Initialize blank window3) rejectedCalls = some (e, c)
      ∧ c = Initialize blank window3 ∧ c.start = -1
      ∧ Calculate c true = none ∧ Calculate c false = none) :=
  ⟨⟨_, _, rfl, rfl, rfl, by decide, by decide⟩, ⟨_, _, rfl, rfl, rfl, by decide, by decide⟩⟩

/-- After `Initialize` and rejected calls only, for every window length,
`Calculate` reads `records[-1]`. -/
theorem Calculate_without_sample_general (c0 : GlideRatioCalculator) (s : ComputerSettings)
    (errs : Int) (calls : List AddCall) (use_te : Bool) (h : ∀ x ∈ calls, ¬ x.accepted) :
    ∃ e, AddAll errs (Initialize c0 s) calls = some (e, Initialize c0 s)
      ∧ Calculate (Initialize c0 s) use_te = none := by
  obtain ⟨e, he⟩ := AddAll_rejected calls errs (Initialize c0 s)
    (fun x hx => not_not.mp (h x hx))
  exact ⟨e, he, Calculate_sentinel_start _ _ rfl (by simp [Initialize])⟩

/-! ## The altitude source -/

/-- The concrete state `fallbackState` is reached by two accepted calls. -/
theorem fallbackState_reached (alt0 alt1 : Int) :
    AddAll 0 (Initialize blank window3)
        [ { distance := 10, altitude := alt0, te_altitude := 40 },
          { distance := 10, altitude := alt1, te_altitude := -5 } ]
      = some (0, fallbackState alt0 alt1) := by
  have hrec : Function.update (Function.update (Initialize blank window3).records 0
        { distance := 10, altitude := alt0, te_altitude := 40 }) 1
        { distance := 10, altitude := alt1, te_altitude := -5 }
      = (fallbackState alt0 alt1).records := by
    funext j
    simp only [fallbackState, Function.update_apply, Initialize, blank]
  have : AddAll 0 (Initialize blank window3)
        [ { distance := 10, altitude := alt0, te_altitude := 40 },
          { distance := 10, altitude := alt1, te_altitude := -5 } ]
      = some (0,
          { records := Function.update (Function.update (Initialize blank window3).records 0
              { distance := 10, altitude := alt0, te_altitude := 40 }) 1
              { distance := 10, altitude := alt1, te_altitude := -5 }
            totaldistance := 20
            start := 1
            size := 3
            valid := false }) := rfl
  rw [this, hrec]
  rfl

theorem altdiff_primary (c : GlideRatioCalculator) (old : Int)
    (h1 : (c.records old.toNat).te_altitude > 0)
    (h2 : (c.records c.start.toNat).te_altitude > 0) :
    altdiff c true old
      = (c.records old.toNat).altitude - (c.records c.start.toNat).altitude := by
  unfold altdiff
  simp [h1, h2]

theorem altdiff_fallback (c : GlideRatioCalculator) (use_te : Bool) (old : Int)
    (h : use_te = false ∨ (c.records old.toNat).te_altitude ≤ 0
      ∨ (c.records c.start.toNat).te_altitude ≤ 0) :
    altdiff c use_te old
      = (c.records old.toNat).te_altitude - (c.records c.start.toNat).te_altitude := by
  unfold altdiff
  have : ¬ (use_te = true ∧ (c.records old.toNat).te_altitude > 0
      ∧ (c.records c.start.toNat).te_altitude > 0) := by
    rintro ⟨h1, h2, h3⟩
    rcases h with h | h | h
    · rw [h] at h1; exact Bool.false_ne_true h1
    · omega
    · omega
  rw [if_neg this]

/-- Claim C4, evaluated on the code. After `Initialize` with `ae15seconds`,
`Add(10, 100, 500)` and `Add(10, 90, 450)`, both `te_altitude`
readings are positive and `use_te` is true, yet the altitude difference of
`Calculate` is `100 - 90 = 10`, taken from the raw `altitude` field, and not
`500 - 450 = 50` from `te_altitude`; `Calculate(true)` returns `20 / 10 = 2`. -/
theorem altdiff_requested_te_reads_altitude :
    ∃ e c, AddAll 0 (Initialize blank window15) teCalls = some (e, c)
      ∧ (c.records (bcold c).toNat).te_altitude > 0
      ∧ (c.records c.start.toNat).te_altitude > 0
      ∧ altdiff c true (bcold c) = 10
      ∧ (c.records (bcold c).toNat).te_altitude - (c.records c.start.toNat).te_altitude = 50
      ∧ Calculate c true = some 2 := by
  refine ⟨_, _, rfl, by decide, by decide, by decide, by decide, ?_⟩
  rw [Calculate_eq_ratioOf _ _ (by decide) (by decide) (by decide)]
  have ht : ∀ c : GlideRatioCalculator, c.totaldistance = 20 → altdiff c true (bcold c) = 10 →
      ratioOf c.totaldistance (altdiff c true (bcold c)) = 2 := by
    intro c h1 h2
    rw [h1, h2]
    norm_num [ratioOf, INVALID_GR, MAXEFFICIENCYSHOW]
  exact congrArg some (ht _ (by decide) (by decide))

/-- Claim C5. When `use_te` is false, or the `te_altitude` of the oldest or of
the newest window sample is not positive, the altitude difference of
`Calculate` is `te_altitude(oldest) - te_altitude(newest)`; hence `Calculate`
returns the same for two states that differ only in the raw `altitude` fields
of their records. -/
theorem fallback_reads_te_altitude (c c' : GlideRatioCalculator) (use_te : Bool)
    (hsame : sameButAltitude c c')
    (hfb : use_te = false ∨ (c.records (bcold c).toNat).te_altitude ≤ 0
      ∨ (c.records c.start.toNat).te_altitude ≤ 0) :
    altdiff c use_te (bcold c)
        = (c.records (bcold c).toNat).te_altitude - (c.records c.start.toNat).te_altitude
      ∧ Calculate c use_te = Calculate c' use_te := by
  obtain ⟨ht, hs, hz, hv, hr⟩ := hsame
  have hb : bcold c' = bcold c := by unfold bcold; rw [hs, hz, hv]
  have hfb' : use_te = false ∨ (c'.records (bcold c').toNat).te_altitude ≤ 0
      ∨ (c'.records c'.start.toNat).te_altitude ≤ 0 := by
    rw [hb, ← hs, ← (hr _).2, ← (hr _).2]; exact hfb
  have ha := altdiff_fallback c use_te (bcold c) hfb
  have ha' := altdiff_fallback c' use_te (bcold c') hfb'
  have he : altdiff c' use_te (bcold c) = altdiff c use_te (bcold c) := by
    rw [hb] at ha'
    rw [ha, ha', ← hs, ← (hr _).2, ← (hr _).2]
  refine ⟨ha, ?_⟩
  unfold Calculate
  simp only [hb, he, ← hs, ← hz, ← hv, ← ht]

theorem fallback_reads_te_altitude_witness :
    sameButAltitude (fallbackState 100 90) (fallbackState 777 55)
      ∧ ((true = false) ∨
          ((fallbackState 100 90).records (bcold (fallbackState 100 90)).toNat).te_altitude ≤ 0
          ∨ ((fallbackState 100 90).records (fallbackState 100 90).start.toNat).te_altitude ≤ 0)
      ∧ altdiff (fallbackState 100 90) true (bcold (fallbackState 100 90))
          = ((fallbackState 100 90).records (bcold (fallbackState 100 90)).toNat).te_altitude
            - ((fallbackState 100 90).records (fallbackState 100 90).start.toNat).te_altitude
      ∧ Calculate (fallbackState 100 90) true = Calculate (fallbackState 777 55) true :=
  have hsame : sameButAltitude (fallbackState 100 90) (fallbackState 777 55) := by
    refine ⟨rfl, rfl, rfl, rfl, ?_⟩
    intro j
    simp only [fallbackState]
    split_ifs <;> exact ⟨rfl, rfl⟩
  have hfb : (true = false) ∨
      ((fallbackState 100 90).records (bcold (fallbackState 100 90)).toNat).te_altitude ≤ 0
      ∨ ((fallbackState 100 90).records (fallbackState 100 90).start.toNat).te_altitude ≤ 0 :=
    Or.inr (Or.inr (by decide))
  ⟨hsame, hfb, fallback_reads_te_altitude _ _ true hsame hfb⟩

/-! ## The result of `Calculate` -/

theorem Calculate_first_sample (c : GlideRatioCalculator) (use_te : Bool)
    (hv : c.valid = false) (hs : c.start = 0) : Calculate c use_te = some 0 := by
  unfold Calculate
  simp [hv, hs]

/-- Counterexample to claim C7 as stated. After `Initialize` with the window of
length 3 and exactly three accepted calls `Add(10,100,100)`, `Add(10,90,90)`,
`Add(10,80,80)`, `start` is 2 and `valid` is still false; likewise after
`Initialize` with `ae15seconds` and exactly fifteen accepted calls, `start` is
14 and `valid` is still false. -/
theorem valid_false_after_window_many :
    (∃ e c, AddAll 0 (Initialize blank window3) exampleCalls = some (e, c)
      ∧ (acceptedCalls exampleCalls).length = bsize window3
      ∧ c.start = 2 ∧ c.valid = false)
    ∧ (∃ e c, AddAll 0 (Initialize blank window15) fifteenCalls = some (e, c)
      ∧ (acceptedCalls fifteenCalls).length = bsize window15
      ∧ c.start = 14 ∧ c.valid = false) :=
  ⟨⟨_, _, rfl, by decide, by decide, by decide⟩, ⟨_, _, rfl, by decide, by decide, by decide⟩⟩

/-- Claim C7, amended. For every window length `n`, after `Initialize` and any
sequence of `Add` calls, `valid` is true exactly when more than `n` samples were
accepted: the wrap is triggered by the accepted call number `n + 1`, and after
exactly `n` accepted calls `valid` is still false. -/
theorem valid_iff_more_than_window (c0 : GlideRatioCalculator) (s : ComputerSettings)
    (errs : Int) (calls : List AddCall) :
    ∃ e c, AddAll errs (Initialize c0 s) calls = some (e, c)
      ∧ (c.valid = true ↔ bsize s < (acceptedCalls calls).length) := by
  obtain ⟨e, c, hrun, _, hP⟩ := run_inv c0 s errs calls
  refine ⟨e, c, hrun, ?_⟩
  rw [hP.valid_eq]
  simp

/-- Claim C8. For every window length `s` and every sequence of `Add` calls
after `Initialize` with at least two accepted samples, `Calculate(use_te)`
returns the value computed directly from the list `L` of accepted samples
(window `W` = the last `min |L| s` samples, sum of their distances, altitude
difference between the first and the last sample of `W`, the same zero and
ceiling handling), and the slot `bcold` that `Calculate` takes as oldest holds
the first sample of `W`. -/
theorem Calculate_eq_naive (c0 : GlideRatioCalculator) (s : ComputerSettings) (errs : Int)
    (calls : List AddCall) (use_te : Bool) (h : 2 ≤ (acceptedCalls calls).length) :
    ∃ e c, AddAll errs (Initialize c0 s) calls = some (e, c)
      ∧ Calculate c use_te
          = some (naiveCalculate (bsize s) (acceptedCalls calls) use_te)
      ∧ ∃ o, (naiveWindow (bsize s) (acceptedCalls calls)).head? = some o
          ∧ c.records (bcold c).toNat = o.toRecord := by
  obtain ⟨e, c, hrun, _, hP⟩ := run_inv c0 s errs calls
  have hb := bsize_bounds s
  refine ⟨e, c, hrun, ?_, ?_⟩
  · rw [Rep_Calculate _ _ c hb.1 hb.2 hP h use_te,
      Rep_naive _ _ c hb.1 hP (by omega) use_te]
  · obtain ⟨o, ho⟩ : ∃ o, (acceptedCalls calls)[(acceptedCalls calls).length - bsize s]?
        = some o := ⟨_, List.getElem?_eq_getElem (by omega)⟩
    refine ⟨o, ?_, Rep_oldest _ _ c hb.1 hP o ho⟩
    have hw : naiveWindow (bsize s) (acceptedCalls calls)
        = (acceptedCalls calls).drop ((acceptedCalls calls).length - bsize s) := by
      unfold naiveWindow
      congr 1
      omega
    rw [hw, List.head?_drop]; exact ho

theorem Calculate_eq_naive_witness :
    2 ≤ (acceptedCalls wrapCalls).length
      ∧ ∃ e c, AddAll 0 (Initialize blank window3) wrapCalls = some (e, c)
          ∧ Calculate c true
              = some (naiveCalculate (bsize window3) (acceptedCalls wrapCalls) true)
          ∧ ∃ o, (naiveWindow (bsize window3) (acceptedCalls wrapCalls)).head? = some o
              ∧ c.records (bcold c).toNat = o.toRecord :=
  ⟨by decide, Calculate_eq_naive blank window3 0 wrapCalls true (by decide)⟩

/-- Counterexample to claim C9 as stated. After `Initialize` with `ae15seconds`
and the single accepted call `Add(10,100,100)`, the oldest and the
newest sample are the same slot 0, their altitude difference is zero, and
`Calculate` returns 0 ("unavailable"), not `INVALID_GR`. -/
theorem Calculate_single_sample_zero :
    ∃ e c, AddAll 0 (Initialize blank window15) singleCall = some (e, c)
      ∧ (acceptedCalls singleCall).length = 1
      ∧ altdiff c true (bcold c) = 0 ∧ altdiff c false (bcold c) = 0
      ∧ Calculate c true = some 0 ∧ Calculate c false = some 0
      ∧ (0 : ℚ) ≠ INVALID_GR := by
  refine ⟨_, _, rfl, by decide, by decide, by decide, ?_, ?_, ?_⟩
  · exact Calculate_first_sample _ true (by decide) (by decide)
  · exact Calculate_first_sample _ false (by decide) (by decide)
  · norm_num [INVALID_GR]

/-- Claim C9, amended. For every state reached from `Initialize` by a sequence
of `Add` calls with at least two accepted samples, and both values of `use_te`,
if the altitude difference between the oldest and the newest sample of the
window (in the field `Calculate` selects) is zero, `Calculate` returns exactly
`INVALID_GR`. -/
theorem Calculate_zero_altdiff (c0 : GlideRatioCalculator) (s : ComputerSettings)
    (errs : Int) (calls : List AddCall) (use_te : Bool)
    (h : 2 ≤ (acceptedCalls calls).length)
    (hz : ∀ e c, AddAll errs (Initialize c0 s) calls = some (e, c) →
      altdiff c use_te (bcold c) = 0) :
    ∃ e c, AddAll errs (Initialize c0 s) calls = some (e, c)
      ∧ Calculate c use_te = some INVALID_GR := by
  obtain ⟨e, c, hrun, _, hP⟩ := run_inv c0 s errs calls
  have hb := bsize_bounds s
  refine ⟨e, c, hrun, ?_⟩
  rw [Rep_Calculate _ _ c hb.1 hb.2 hP h use_te, hz e c hrun]
  simp [ratioOf]

theorem Calculate_zero_altdiff_witness :
    2 ≤ (acceptedCalls levelCalls).length
      ∧ (∀ e c, AddAll 0 (Initialize blank window15) levelCalls = some (e, c) →
          altdiff c true (bcold c) = 0)
      ∧ ∃ e c, AddAll 0 (Initialize blank window15) levelCalls = some (e, c)
          ∧ Calculate c true = some INVALID_GR :=
  have hz : ∀ e c, AddAll 0 (Initialize blank window15) levelCalls = some (e, c) →
      altdiff c true (bcold c) = 0 := by
    intro e c h
    cases h
    decide
  ⟨by decide, hz, Calculate_zero_altdiff blank window15 0 levelCalls true (by decide) hz⟩

/-- Claim C10. After `Initialize` with window length 3 and `Add(10,100,100)`,
`Add(10,90,90)`, `Add(10,80,80)`, `totaldistance` is 30, the altitude difference
between the oldest and the newest sample is 20, and `Calculate(true)` returns
`30 / 20 = 1.5`. -/
theorem worked_example :
    ∃ e c, AddAll 0 (Initialize blank window3) exampleCalls = some (e, c)
      ∧ c.totaldistance = 30
      ∧ altdiff c true (bcold c) = 20
      ∧ (c.records (bcold c).toNat).te_altitude - (c.records c.start.toNat).te_altitude = 20
      ∧ Calculate c true = some (3 / 2) := by
  refine ⟨_, _, rfl, by decide, by decide, by decide, ?_⟩
  rw [Calculate_eq_ratioOf _ _ (by decide) (by decide) (by decide)]
  have ht : ∀ c : GlideRatioCalculator, c.totaldistance = 30 →
      altdiff c true (bcold c) = 20 →
      ratioOf c.totaldistance (altdiff c true (bcold c)) = 3 / 2 := by
    intro c h1 h2
    rw [h1, h2]
    norm_num [ratioOf, INVALID_GR, MAXEFFICIENCYSHOW]
  exact congrArg some (ht _ (by decide) (by decide))

/-! ## The polar fit -/

theorem lagrange_form (v1 v2 v3 x y z v : ℚ) :
    (x + y + z) * v ^ 2 + -(x * (v2 + v3) + y * (v1 + v3) + z * (v1 + v2)) * v
        + (x * (v2 * v3) + y * (v1 * v3) + z * (v1 * v2))
      = x * ((v - v2) * (v - v3)) + y * ((v - v1) * (v - v3)) + z * ((v - v1) * (v - v2)) := by
  ring

/-- For three different airspeeds the modelled fit passes through the three
calibration points. -/
theorem From3VW_interpolates (v1 v2 v3 w1 w2 w3 : ℚ)
    (h12 : v1 ≠ v2) (h13 : v1 ≠ v3) (h23 : v2 ≠ v3) :
    ∃ p, From3VW v1 v2 v3 w1 w2 w3 = some p
      ∧ p.sink v1 = w1 ∧ p.sink v2 = w2 ∧ p.sink v3 = w3 := by
  have d12 : v1 - v2 ≠ 0 := sub_ne_zero.mpr h12
  have d13 : v1 - v3 ≠ 0 := sub_ne_zero.mpr h13
  have d23 : v2 - v3 ≠ 0 := sub_ne_zero.mpr h23
  have d21 : v2 - v1 ≠ 0 := sub_ne_zero.mpr (Ne.symm h12)
  have d31 : v3 - v1 ≠ 0 := sub_ne_zero.mpr (Ne.symm h13)
  have d32 : v3 - v2 ≠ 0 := sub_ne_zero.mpr (Ne.symm h23)
  refine ⟨{ a := w1 / ((v1 - v2) * (v1 - v3)) + w2 / ((v2 - v1) * (v2 - v3))
              + w3 / ((v3 - v1) * (v3 - v2))
            b := -(w1 / ((v1 - v2) * (v1 - v3)) * (v2 + v3)
              + w2 / ((v2 - v1) * (v2 - v3)) * (v1 + v3)
              + w3 / ((v3 - v1) * (v3 - v2)) * (v1 + v2))
            c := w1 / ((v1 - v2) * (v1 - v3)) * (v2 * v3)
              + w2 / ((v2 - v1) * (v2 - v3)) * (v1 * v3)
              + w3 / ((v3 - v1) * (v3 - v2)) * (v1 * v2) }, ?_, ?_, ?_, ?_⟩
  · unfold From3VW quotient
    rw [if_neg (mul_ne_zero d12 d13), if_neg (mul_ne_zero d21 d23),
      if_neg (mul_ne_zero d31 d32)]
  · show _ * v1 ^ 2 + _ * v1 + _ = w1
    rw [lagrange_form, div_mul_cancel₀ _ (mul_ne_zero d12 d13)]
    simp only [sub_self, zero_mul, mul_zero, add_zero]
  · show _ * v2 ^ 2 + _ * v2 + _ = w2
    rw [lagrange_form, div_mul_cancel₀ _ (mul_ne_zero d21 d23)]
    simp only [sub_self, zero_mul, mul_zero, add_zero, zero_add]
  · show _ * v3 ^ 2 + _ * v3 + _ = w3
    rw [lagrange_form, div_mul_cancel₀ _ (mul_ne_zero d31 d32)]
    simp only [sub_self, zero_mul, mul_zero, add_zero, zero_add]

theorem From3VW_singular (v1 v2 v3 w1 w2 w3 : ℚ)
    (h : v1 = v2 ∨ v1 = v3 ∨ v2 = v3) : From3VW v1 v2 v3 w1 w2 w3 = none := by
  unfold From3VW
  rcases h with h | h | h
  · have hq : quotient w1 ((v1 - v2) * (v1 - v3)) = none := by simp [quotient, h]
    rw [hq]
  · have hq : quotient w1 ((v1 - v2) * (v1 - v3)) = none := by simp [quotient, h]
    rw [hq]
  · have hq : quotient w2 ((v2 - v1) * (v2 - v3)) = none := by simp [quotient, h]
    rw [hq]
    split <;> simp_all

/-- Claim C16. For every `PolarInfo` in which at least two of the calibration
airspeeds `v1`, `v2`, `v3` are equal, `IsValid()`, the validity check of the
coefficients that `CalculateCoefficients()` obtains from `From3VW`, returns
false. -/
theorem degenerate_polar_invalid (p : PolarInfo)
    (h : p.v1 = p.v2 ∨ p.v1 = p.v3 ∨ p.v2 = p.v3) : p.IsValid = false := by
  unfold PolarInfo.IsValid PolarInfo.CalculateCoefficients
  rw [From3VW_singular _ _ _ _ _ _ h]
  rfl

theorem degenerate_polar_invalid_witness :
    ((30 : ℚ) = 30 ∨ (30 : ℚ) = 50 ∨ (30 : ℚ) = 50)
      ∧ PolarInfo.IsValid { v1 := 30, v2 := 30, v3 := 50, w1 := -1, w2 := -1, w3 := -3 }
          = false :=
  ⟨Or.inl rfl,
    degenerate_polar_invalid { v1 := 30, v2 := 30, v3 := 50, w1 := -1, w2 := -1, w3 := -3 }
      (Or.inl rfl)⟩

/-! ## The smoother `UpdateGR` -/

theorem LimitGR_abs_ge_one (g : ℚ) : 1 ≤ |LimitGR g| := by
  unfold LimitGR
  split_ifs with h1 h2 h3
  · norm_num [INVALID_GR]
  · norm_num
  · norm_num
  · rcases le_or_lt 0 g with hg | hg
    · have : 1 ≤ g := by
        by_contra hc
        exact h2 ⟨hg, not_le.mp hc⟩
      rw [abs_of_nonneg hg]; exact this
    · have : g ≤ -1 := by
        by_contra hc
        exact h3 ⟨hg, not_le.mp hc⟩
      rw [abs_of_neg hg]; linarith

theorem LimitGR_abs_le (g : ℚ) : |LimitGR g| ≤ INVALID_GR := by
  unfold LimitGR
  split_ifs with h1 h2 h3
  · norm_num [INVALID_GR]
  · norm_num [INVALID_GR]
  · norm_num [INVALID_GR]
  · exact not_lt.mp h1

theorem abs_reciprocal_lt (s : ℚ) (h : |s| > 1 / INVALID_GR) : |1 / s| < INVALID_GR := by
  have hpos : (0 : ℚ) < |s| := lt_trans (by norm_num [INVALID_GR]) h
  have h1 : 1 < INVALID_GR * |s| := by
    have := h
    unfold INVALID_GR at this ⊢
    linarith
  rw [abs_div, abs_one, div_lt_iff₀ hpos]
  exact h1

theorem LimitGR_zero : LimitGR 0 = 1 := by
  norm_num [LimitGR, INVALID_GR]

theorem UpdateGR_range (filter : Dbl → ℚ → ℚ → Dbl) (gr leg h f : ℚ) (hleg : 0 < leg) :
    1 ≤ |UpdateGR filter gr leg h f| ∧ |UpdateGR filter gr leg h f| ≤ INVALID_GR := by
  unfold UpdateGR
  rw [if_neg (not_le.mpr hleg)]
  cases smoothedAngle filter gr leg h f with
  | fin q =>
    simp only []
    split_ifs
    · exact ⟨LimitGR_abs_ge_one _, LimitGR_abs_le _⟩
    · norm_num [INVALID_GR]
  | posInf => exact ⟨LimitGR_abs_ge_one _, LimitGR_abs_le _⟩
  | negInf => exact ⟨LimitGR_abs_ge_one _, LimitGR_abs_le _⟩
  | nan => norm_num [INVALID_GR]

theorem UpdateGR_of_fin (filter : Dbl → ℚ → ℚ → Dbl) (gr leg h f q : ℚ) (hleg : 0 < leg)
    (hq : smoothedAngle filter gr leg h f = .fin q) :
    UpdateGR filter gr leg h f
      = if |q| > 1 / INVALID_GR then LimitGR (1 / q) else INVALID_GR := by
  unfold UpdateGR
  rw [if_neg (not_le.mpr hleg), hq]

/-- Counterexample to claim C11 as stated. With `leg_distance = 0` the previous
ratio `1/2` is returned as it is: finite, nonzero, of magnitude below 1 and not
`INVALID_GR`. -/
theorem UpdateGR_returns_small_previous :
    UpdateGR LowPassFilter (1 / 2) 0 100 (1 / 2) = 1 / 2
      ∧ (1 / 2 : ℚ) ≠ 0 ∧ ¬ (1 ≤ |(1 / 2 : ℚ)|) ∧ (1 / 2 : ℚ) ≠ INVALID_GR := by
  refine ⟨?_, by norm_num, ?_, by norm_num [INVALID_GR]⟩
  · simp [UpdateGR]
  · rw [abs_of_pos (by norm_num : (0 : ℚ) < 1 / 2)]; norm_num

/-- Claim C11, amended. For `leg_distance > 0`, every `previous_gr`, every
`height_above_leg`, every `filter_factor` and every filter, the value `r`
returned by `UpdateGR` satisfies `|r| >= 1` or `r = INVALID_GR`. (For
`leg_distance <= 0` the previous ratio is returned, whatever its magnitude.) -/
theorem UpdateGR_clamp (filter : Dbl → ℚ → ℚ → Dbl) (gr leg h f : ℚ) (hleg : 0 < leg) :
    1 ≤ |UpdateGR filter gr leg h f| ∨ UpdateGR filter gr leg h f = INVALID_GR :=
  Or.inl (UpdateGR_range filter gr leg h f hleg).1

theorem UpdateGR_clamp_witness :
    (0 : ℚ) < 100
      ∧ (1 ≤ |UpdateGR LowPassFilter (1 / 2) 100 10 (1 / 2)|
          ∨ UpdateGR LowPassFilter (1 / 2) 100 10 (1 / 2) = INVALID_GR) :=
  ⟨by norm_num, UpdateGR_clamp LowPassFilter (1 / 2) 100 10 (1 / 2) (by norm_num)⟩

theorem smoothedAngle_invalid (filter : Dbl → ℚ → ℚ → Dbl) (leg h f : ℚ) :
    smoothedAngle filter INVALID_GR leg h f = .fin (h / leg) := by
  unfold smoothedAngle
  rw [if_neg (fun hc => hc rfl)]

theorem smoothedAngle_LowPassFilter (gr leg h f : ℚ) (hgr0 : gr ≠ 0)
    (hgr : gr ≠ INVALID_GR) :
    smoothedAngle LowPassFilter gr leg h f
      = .fin ((1 - f) * (1 / gr) + f * (h / leg)) := by
  unfold smoothedAngle reciprocal
  rw [if_pos hgr, if_neg hgr0]
  rfl

/-- Claim C12. For `leg_distance > 0` and a nonzero previous ratio `gr` other
than `INVALID_GR` (for every `filter_factor f`, in particular `0 < f < 1`), the
smoothed angle is `s = (1 - f) * (1/gr) + f * (height_above_leg / leg_distance)`
and the result is `LimitGR (1/s)` when `|s| > 1 / INVALID_GR`, else
`INVALID_GR`; when the previous ratio is `INVALID_GR` the filter is bypassed,
`s = height_above_leg / leg_distance`, and the result depends neither on the
filter nor on `filter_factor`. -/
theorem UpdateGR_smooths_angle (gr leg h f : ℚ) (hleg : 0 < leg) (hgr0 : gr ≠ 0)
    (hgr : gr ≠ INVALID_GR) :
    smoothedAngle LowPassFilter gr leg h f
        = .fin ((1 - f) * (1 / gr) + f * (h / leg))
      ∧ UpdateGR LowPassFilter gr leg h f
          = (if |(1 - f) * (1 / gr) + f * (h / leg)| > 1 / INVALID_GR
              then LimitGR (1 / ((1 - f) * (1 / gr) + f * (h / leg))) else INVALID_GR)
      ∧ ∀ (filter : Dbl → ℚ → ℚ → Dbl) (f1 : ℚ),
          smoothedAngle filter INVALID_GR leg h f1 = .fin (h / leg)
          ∧ UpdateGR filter INVALID_GR leg h f1
              = (if |h / leg| > 1 / INVALID_GR then LimitGR (1 / (h / leg))
                  else INVALID_GR) := by
  refine ⟨smoothedAngle_LowPassFilter gr leg h f hgr0 hgr, ?_, ?_⟩
  · exact UpdateGR_of_fin LowPassFilter gr leg h f _ hleg
      (smoothedAngle_LowPassFilter gr leg h f hgr0 hgr)
  · intro filter f1
    exact ⟨smoothedAngle_invalid filter leg h f1,
      UpdateGR_of_fin filter INVALID_GR leg h f1 _ hleg (smoothedAngle_invalid filter leg h f1)⟩

theorem UpdateGR_smooths_angle_witness :
    (0 : ℚ) < 100 ∧ (20 : ℚ) ≠ 0 ∧ (20 : ℚ) ≠ INVALID_GR
      ∧ smoothedAngle LowPassFilter 20 100 10 (1 / 2)
          = .fin ((1 - 1 / 2) * (1 / 20) + 1 / 2 * (10 / 100))
      ∧ UpdateGR LowPassFilter 20 100 10 (1 / 2)
          = (if |(1 - 1 / 2) * (1 / 20) + 1 / 2 * (10 / 100)| > 1 / INVALID_GR
              then LimitGR (1 / ((1 - 1 / 2) * (1 / 20) + 1 / 2 * (10 / 100)))
              else INVALID_GR)
      ∧ ∀ (filter : Dbl → ℚ → ℚ → Dbl) (f1 : ℚ),
          smoothedAngle filter INVALID_GR 100 10 f1 = .fin (10 / 100)
          ∧ UpdateGR filter INVALID_GR 100 10 f1
              = (if |(10 : ℚ) / 100| > 1 / INVALID_GR then LimitGR (1 / (10 / 100))
                  else INVALID_GR) :=
  ⟨by norm_num, by norm_num, by norm_num [INVALID_GR],
    UpdateGR_smooths_angle 20 100 10 (1 / 2) (by norm_num) (by norm_num)
      (by norm_num [INVALID_GR])⟩

/-- The worked value of the smoother: previous ratio 20, 10 above the leg over a
distance of 100, factor 1/2: the angles 1/20 and 1/10 blend to 3/40, and the
new ratio is 40/3. -/
theorem UpdateGR_example : UpdateGR LowPassFilter 20 100 10 (1 / 2) = 40 / 3 := by
  rw [UpdateGR_of_fin LowPassFilter 20 100 10 (1 / 2) _ (by norm_num)
    (smoothedAngle_LowPassFilter 20 100 10 (1 / 2) (by norm_num) (by norm_num [INVALID_GR]))]
  norm_num [LimitGR, INVALID_GR, abs_of_pos]

/-- A previous ratio of zero: `1. / gr` is infinite, the filter keeps it
infinite for a factor below 1, its reciprocal is zero and `LimitGR` raises the
result to 1. -/
theorem UpdateGR_zero_previous : UpdateGR LowPassFilter 0 100 10 (1 / 2) = 1 := by
  have hs : smoothedAngle LowPassFilter 0 100 10 (1 / 2) = .posInf := by
    unfold smoothedAngle reciprocal
    rw [if_pos (by norm_num [INVALID_GR]), if_pos rfl]
    norm_num [LowPassFilter]
  unfold UpdateGR
  rw [if_neg (by norm_num), hs]
  exact LimitGR_zero

/-- Claim C14. For every `previous_gr` (also `INVALID_GR`, and values of
magnitude below 1), every `height_above_leg`, every `filter_factor` and every
`leg_distance <= 0`, `UpdateGR` returns `previous_gr` exactly. -/
theorem UpdateGR_without_leg (filter : Dbl → ℚ → ℚ → Dbl) (gr leg h f : ℚ)
    (hleg : leg ≤ 0) : UpdateGR filter gr leg h f = gr := by
  unfold UpdateGR
  rw [if_pos hleg]

theorem UpdateGR_without_leg_witness :
    (-5 : ℚ) ≤ 0 ∧ UpdateGR LowPassFilter (1 / 2) (-5) 100 (1 / 2) = 1 / 2 :=
  ⟨by norm_num, UpdateGR_without_leg LowPassFilter (1 / 2) (-5) 100 (1 / 2) (by norm_num)⟩

/-- Claim C19. With `INVALID_GR = 999`, for every `previous_gr` (zero
included), every `height_above_leg`, every `filter_factor`, every filter and
every `leg_distance > 0`, the result `r` of `UpdateGR` satisfies
`1 <= |r| <= INVALID_GR`; the argument that `UpdateGR` passes to `LimitGR`, the
reciprocal of an angle of magnitude above `1 / INVALID_GR` or zero, never has a
magnitude above `INVALID_GR`, so the first branch of `LimitGR` is not taken. -/
theorem UpdateGR_result_range (filter : Dbl → ℚ → ℚ → Dbl) (gr leg h f : ℚ)
    (hleg : 0 < leg) :
    INVALID_GR = 999
      ∧ 1 ≤ |UpdateGR filter gr leg h f| ∧ |UpdateGR filter gr leg h f| ≤ INVALID_GR
      ∧ (∀ q, smoothedAngle filter gr leg h f = .fin q → |q| > 1 / INVALID_GR →
          ¬ (|1 / q| > INVALID_GR) ∧ UpdateGR filter gr leg h f = LimitGR (1 / q))
      ∧ ¬ (|(0 : ℚ)| > INVALID_GR) := by
  refine ⟨rfl, (UpdateGR_range filter gr leg h f hleg).1,
    (UpdateGR_range filter gr leg h f hleg).2, ?_, by norm_num [INVALID_GR]⟩
  intro q hq hgt
  refine ⟨not_lt.mpr (le_of_lt (abs_reciprocal_lt q hgt)), ?_⟩
  rw [UpdateGR_of_fin filter gr leg h f q hleg hq, if_pos hgt]

theorem UpdateGR_result_range_witness :
    (0 : ℚ) < 100
      ∧ INVALID_GR = 999
      ∧ 1 ≤ |UpdateGR LowPassFilter 0 100 10 (1 / 2)|
      ∧ |UpdateGR LowPassFilter 0 100 10 (1 / 2)| ≤ INVALID_GR
      ∧ (∀ q, smoothedAngle LowPassFilter 0 100 10 (1 / 2) = .fin q → |q| > 1 / INVALID_GR →
          ¬ (|1 / q| > INVALID_GR) ∧ UpdateGR LowPassFilter 0 100 10 (1 / 2) = LimitGR (1 / q))
      ∧ ¬ (|(0 : ℚ)| > INVALID_GR) :=
  ⟨by norm_num, UpdateGR_result_range LowPassFilter 0 100 10 (1 / 2) (by norm_num)⟩

/-! ## The window size, index safety and the range of the rolling sum -/

/-- Claim C15, evaluated on the code. Compiled by clang, the switch of
`Initialize` has no `default` branch: for a setting outside the six enumerators
no value is assigned to `bsize`, and the assertions `bsize >= 3` and
`bsize <= ARRAY_SIZE(records)` and the assignment `size = bsize` read it
uninitialised, so `size` is not set to 3 and the assertions can fail; the same
call with the `default` branch compiled sets `size` to 3. -/
theorem Initialize_unlisted_under_clang :
    bsizeClang { average_eff_time := .unlisted } = none
      ∧ InitializeClang blank { average_eff_time := .unlisted } = none
      ∧ bsize { average_eff_time := .unlisted } = 3
      ∧ (Initialize blank { average_eff_time := .unlisted }).size = 3 :=
  ⟨rfl, rfl, rfl, rfl⟩

/-- With the `default` branch compiled, `Initialize` sets `size` to 15, 30, 60,
90, 120 or 180 for the six recognised choices and to 3 for any other value, so
`3 <= size <= capacity` holds and neither assertion can fail; compiled by
clang, `Initialize` does the same for the six recognised choices. -/
theorem Initialize_size_bounds (c : GlideRatioCalculator) (s : ComputerSettings) :
    (Initialize c s).size = (bsize s : Int)
      ∧ (s.average_eff_time = .ae15seconds → (Initialize c s).size = 15)
      ∧ (s.average_eff_time = .ae30seconds → (Initialize c s).size = 30)
      ∧ (s.average_eff_time = .ae60seconds → (Initialize c s).size = 60)
      ∧ (s.average_eff_time = .ae90seconds → (Initialize c s).size = 90)
      ∧ (s.average_eff_time = .ae2minutes → (Initialize c s).size = 120)
      ∧ (s.average_eff_time = .ae3minutes → (Initialize c s).size = 180)
      ∧ (s.average_eff_time = .unlisted → (Initialize c s).size = 3)
      ∧ (s.average_eff_time ≠ .unlisted → InitializeClang c s = some (Initialize c s))
      ∧ 3 ≤ bsize s ∧ bsize s ≤ capacity
      ∧ 3 ≤ (Initialize c s).size ∧ (Initialize c s).size ≤ (capacity : Int) := by
  rcases s with ⟨a⟩
  cases a <;> simp [Initialize, InitializeClang, bsize, bsizeClang, capacity]

theorem sum_distance_ge (M : List AddCall) (h : ∀ x ∈ M, x.accepted) :
    3 * M.length ≤ (M.map AddCall.distance).sum := by
  induction M with
  | nil => simp
  | cons y ys ih =>
    have h1 := ih (fun x hx => h x (List.mem_cons_of_mem _ hx))
    have h2 := h y (List.mem_cons_self _ _)
    unfold AddCall.accepted at h2
    simp only [List.map_cons, List.sum_cons, List.length_cons]
    omega

theorem RollInv_occupied_le (c : GlideRatioCalculator) (h : RollInv c) :
    occupied c ≤ 180 := by
  have h1 := h.size_hi
  have h2 := h.start_hi
  have hcap : (capacity : Int) = 180 := by simp [capacity]
  unfold occupied
  split <;> omega

theorem RollInv_total_le (c : GlideRatioCalculator) (h : RollInv c) :
    c.totaldistance ≤ 27000 := by
  have h1 := slotSum_le c.records (occupied c) (fun j hj => (h.bound j hj).2)
  have h2 := RollInv_occupied_le c h
  rw [h.sum]
  omega

theorem RollInv_no_underflow (c : GlideRatioCalculator) (h : RollInv c)
    (hv : nextValid c = true) :
    (c.records (nextStart c).toNat).distance ≤ c.totaldistance := by
  have h1 := h.size_lo
  have h3 := h.start_lo
  have h4 := h.start_hi
  have hocc : occupied c = c.size.toNat := by
    unfold occupied
    by_cases hcv : c.valid = true
    · simp [hcv]
    · have hw : c.start + 1 ≥ c.size := by
        by_contra hcon
        simp [nextValid, hcon] at hv
        exact hcv hv
      simp [hcv]
      omega
  have hlt : (nextStart c).toNat < c.size.toNat := by
    unfold nextStart; split <;> omega
  rw [h.sum, hocc]
  exact slot_le_slotSum c.records c.size.toNat (nextStart c).toNat hlt

theorem written_total_exact (c : GlideRatioCalculator) (d : Nat) (a t : Int)
    (h : RollInv c) (hd : d ≤ 150) :
    (written c d a t).totaldistance
        + (if nextValid c then (c.records (nextStart c).toNat).distance else 0)
      = c.totaldistance + d := by
  have ht := RollInv_total_le c h
  unfold written
  simp only [u32_eq]
  by_cases hv : nextValid c = true
  · have hu := RollInv_no_underflow c h hv
    simp only [hv, if_true]
    omega
  · have hv2 : nextValid c = false := by simpa using hv
    simp only [hv2]
    simp
    omega

theorem Rep_indices (n : Nat) (L : List AddCall) (c : GlideRatioCalculator)
    (hn : 3 ≤ n) (h : Rep n L c) (hk : 1 ≤ L.length) :
    0 ≤ c.start ∧ c.start < c.size ∧ 0 ≤ bcold c ∧ bcold c < c.size := by
  have hs := Rep_start n L c h hk
  have hb := Rep_bcold n L c hn h hk
  have hm1 : (L.length - 1) % n < n := Nat.mod_lt _ (by omega)
  have hm2 : (L.length - n) % n < n := Nat.mod_lt _ (by omega)
  rw [hs, hb, h.size_eq]
  omega

theorem Rep_Calculate_defined (n : Nat) (L : List AddCall) (c : GlideRatioCalculator)
    (hn : 3 ≤ n) (hcap : n ≤ capacity) (h : Rep n L c) (hk : 1 ≤ L.length)
    (use_te : Bool) :
    Calculate c use_te
      = some (if L.length = 1 then 0 else naiveCalculate n L use_te) := by
  by_cases h1 : L.length = 1
  · rw [if_pos h1]
    exact Rep_Calculate_single n L c hn h h1 use_te
  · rw [if_neg h1, Rep_Calculate n L c hn hcap h (by omega) use_te,
      Rep_naive n L c hn h hk use_te]

/-- Claim C17. For every window length and every sequence of `Add` calls after
`Initialize` with at least one accepted sample, the run is defined (every
access of `Add` lies inside the array), `3 <= size <= capacity`, and in the
state reached `0 <= start < size`, the oldest-slot index `bcold` lies in
`[0, size)`, the slot of the next `Add` lies in `[0, size)`, and `Calculate`
returns a value (both of its accesses lie inside the array). -/
theorem index_safety (c0 : GlideRatioCalculator) (s : ComputerSettings) (errs : Int)
    (calls : List AddCall) (use_te : Bool) (h : 1 ≤ (acceptedCalls calls).length) :
    ∃ e c, AddAll errs (Initialize c0 s) calls = some (e, c)
      ∧ 3 ≤ c.size ∧ c.size ≤ (capacity : Int)
      ∧ 0 ≤ c.start ∧ c.start < c.size
      ∧ 0 ≤ bcold c ∧ bcold c < c.size
      ∧ 0 ≤ nextStart c ∧ nextStart c < c.size
      ∧ ∃ r, Calculate c use_te = some r := by
  obtain ⟨e, c, hrun, hR, hP⟩ := run_inv c0 s errs calls
  have hb := bsize_bounds s
  obtain ⟨i1, i2, i3, i4⟩ := Rep_indices _ _ c hb.1 hP h
  have hn : 0 ≤ nextStart c ∧ nextStart c < c.size := by
    have := hR.size_lo
    unfold nextStart
    split <;> omega
  exact ⟨e, c, hrun, hR.size_lo, hR.size_hi, i1, i2, i3, i4, hn.1, hn.2,
    _, Rep_Calculate_defined _ _ c hb.1 hb.2 hP h use_te⟩

theorem index_safety_witness :
    1 ≤ (acceptedCalls wrapCalls).length
      ∧ ∃ e c, AddAll 0 (Initialize blank window3) wrapCalls = some (e, c)
          ∧ 3 ≤ c.size ∧ c.size ≤ (capacity : Int)
          ∧ 0 ≤ c.start ∧ c.start < c.size
          ∧ 0 ≤ bcold c ∧ bcold c < c.size
          ∧ 0 ≤ nextStart c ∧ nextStart c < c.size
          ∧ ∃ r, Calculate c true = some r :=
  ⟨by decide, index_safety blank window3 0 wrapCalls true (by decide)⟩

/-- Claim C18. `Initialize` does not clear the records, yet for any two
estimators (arbitrary records, `start`, `valid`, `totaldistance`, and
arbitrary values of the counter `errs`), after `Initialize` with the same
setting and the same sequence of `Add` calls with at least one accepted sample,
`totaldistance` is equal in both and `Calculate(use_te)` returns the same value
in both. -/
theorem reinitialisation_hides_history (c1 c2 : GlideRatioCalculator)
    (s : ComputerSettings) (e1 e2 : Int) (calls : List AddCall) (use_te : Bool)
    (h : 1 ≤ (acceptedCalls calls).length) :
    ∃ ea a eb b r, AddAll e1 (Initialize c1 s) calls = some (ea, a)
      ∧ AddAll e2 (Initialize c2 s) calls = some (eb, b)
      ∧ a.totaldistance = b.totaldistance
      ∧ Calculate a use_te = some r ∧ Calculate b use_te = some r := by
  obtain ⟨ea, a, hrun1, _, hP1⟩ := run_inv c1 s e1 calls
  obtain ⟨eb, b, hrun2, _, hP2⟩ := run_inv c2 s e2 calls
  have hb := bsize_bounds s
  refine ⟨ea, a, eb, b, _, hrun1, hrun2, ?_,
    Rep_Calculate_defined _ _ a hb.1 hb.2 hP1 h use_te,
    Rep_Calculate_defined _ _ b hb.1 hb.2 hP2 h use_te⟩
  rw [hP1.total_eq, hP2.total_eq]

theorem reinitialisation_hides_history_witness :
    1 ≤ (acceptedCalls wrapCalls).length
      ∧ ∃ ea a eb b r,
          AddAll 0 (Initialize blank window3) wrapCalls = some (ea, a)
          ∧ AddAll 2 (Initialize (fallbackState 700 800) window3) wrapCalls = some (eb, b)
          ∧ a.totaldistance = b.totaldistance
          ∧ Calculate a true = some r ∧ Calculate b true = some r :=
  ⟨by decide,
    reinitialisation_hides_history blank (fallbackState 700 800) window3 0 2 wrapCalls true
      (by decide)⟩

/-- Claim C20. For every window length and every sequence of `Add` calls after
`Initialize`, with `k = min (number of accepted samples) size`,
`3 * k <= totaldistance <= 150 * k`, hence `totaldistance <= 27000`; at the next
accepted `Add` the distance subtracted (when `valid`) is at most
`totaldistance`, the sum with the new distance stays below `2^32`, and the new
`totaldistance` is the exact value `totaldistance - old + distance`. -/
theorem totaldistance_bounds (c0 : GlideRatioCalculator) (s : ComputerSettings)
    (errs : Int) (calls : List AddCall) (x : AddCall) (hx : x.accepted) :
    ∃ e c c', AddAll errs (Initialize c0 s) calls = some (e, c)
      ∧ 3 * min (acceptedCalls calls).length (bsize s) ≤ c.totaldistance
      ∧ c.totaldistance ≤ 150 * min (acceptedCalls calls).length (bsize s)
      ∧ c.totaldistance ≤ 27000
      ∧ (nextValid c = true →
          (c.records (nextStart c).toNat).distance ≤ c.totaldistance)
      ∧ c.totaldistance + x.distance < u32
      ∧ Add e c x.distance x.altitude x.te_altitude = some (0, c')
      ∧ c'.totaldistance
          + (if nextValid c then (c.records (nextStart c).toNat).distance else 0)
        = c.totaldistance + x.distance := by
  obtain ⟨e, c, hrun, hR, hP⟩ := run_inv c0 s errs calls
  have hb := bsize_bounds s
  have hacc : ∀ y ∈ (acceptedCalls calls).drop ((acceptedCalls calls).length - bsize s),
      y.accepted := fun y hy => hP.acc y (List.mem_of_mem_drop hy)
  have hlo := sum_distance_ge _ hacc
  have hhi := sum_distance_le _ hacc
  have hlen : ((acceptedCalls calls).drop ((acceptedCalls calls).length - bsize s)).length
      = min (acceptedCalls calls).length (bsize s) := by
    simp only [List.length_drop]; omega
  rw [hlen, ← hP.total_eq] at hlo hhi
  have ht := RollInv_total_le c hR
  have hxd : 3 ≤ x.distance ∧ x.distance ≤ 150 := by
    unfold AddCall.accepted at hx; omega
  refine ⟨e, c, written c x.distance x.altitude x.te_altitude, hrun, hlo, hhi, ht,
    RollInv_no_underflow c hR, ?_,
    Add_accepted_eq e c _ _ _ (nextStart_inArray c hR) hx,
    written_total_exact c _ _ _ hR hxd.2⟩
  rw [u32_eq]; omega

theorem totaldistance_bounds_witness :
    AddCall.accepted { distance := 150, altitude := 60, te_altitude := 60 }
      ∧ ∃ e c c', AddAll 0 (Initialize blank window3) wrapCalls = some (e, c)
          ∧ 3 * min (acceptedCalls wrapCalls).length (bsize window3) ≤ c.totaldistance
          ∧ c.totaldistance ≤ 150 * min (acceptedCalls wrapCalls).length (bsize window3)
          ∧ c.totaldistance ≤ 27000
          ∧ (nextValid c = true →
              (c.records (nextStart c).toNat).distance ≤ c.totaldistance)
          ∧ c.totaldistance + 150 < u32
          ∧ Add e c 150 60 60 = some (0, c')
          ∧ c'.totaldistance
              + (if nextValid c then (c.records (nextStart c).toNat).distance else 0)
            = c.totaldistance + 150 :=
  ⟨by decide,
    totaldistance_bounds blank window3 0 wrapCalls
      { distance := 150, altitude := 60, te_altitude := 60 } (by decide)⟩

end GlideRatio
